import Mathlib

/-!
Shallow embedding of the collapse-scheduling engine of `src/summax.js`
(a langgraph map-reduce document summarizer) and verification of its
specified properties.

Conventions:
  * JavaScript strings are Lean `String`; `doc.pageContent.length` is the
    Lean `String.length` (a `Nat`, so costs are non-negative integers).
  * The external LLM client (`llm.invoke` via prompt templates) is an
    abstract parameter `llm : LLM`, fallible as in §6 of the spec.
    `okLLM f` is a client that always succeeds and answers `f prompt`.
  * Library functions (`splitListOfDocs`, `collapseDocs`, the langgraph
    Pregel driver) are not part of this repository's sources; they are
    modelled from the spec, each marked `Modelled from the spec:`.
-/

namespace Summax

/-- A langchain `Document`: the only field the program reads or writes is
`pageContent` (see `collectSummaries`, `lengthFunction` in src/summax.js). -/
structure Document where
  pageContent : String
deriving Repr, DecidableEq

/-- The graph state of src/summax.js lines 131-138 (`OverallState`):
`contents` (chunked document text), `summaries` (append-only accumulation),
`collapsedSummaries` (the current WorkingSet) and `finalSummary`
(absent until written, hence `Option`). -/
structure OverallState where
  contents : List String
  summaries : List String
  collapsedSummaries : List Document
  finalSummary : Option String
deriving Repr, DecidableEq

/-- A partial state update as returned by a graph node: each node of
src/summax.js returns an object carrying only the channels it writes
(`none` = channel not present in the returned object). -/
structure StateUpdate where
  contents : Option (List String) := none
  summaries : Option (List String) := none
  collapsedSummaries : Option (List Document) := none
  finalSummary : Option String := none
deriving Repr, DecidableEq

/-- Channel merge of src/summax.js lines 131-138: `summaries` uses the
concatenation reducer `(state, update) => state.concat(update)`; the other
channels are last-value channels overwritten by an update. -/
def applyUpdate (state : OverallState) (update : StateUpdate) : OverallState :=
  { contents := update.contents.getD state.contents
    summaries := match update.summaries with
      | none => state.summaries
      | some v => state.summaries ++ v
    collapsedSummaries := update.collapsedSummaries.getD state.collapsedSummaries
    finalSummary := match update.finalSummary with
      | none => state.finalSummary
      | some v => some v }

/-- External LLM client abstraction (spec §6): a completion call takes the
prompt text and either fails upstream or returns the completion text. -/
structure UpstreamError where
  message : String
deriving Repr, DecidableEq

abbrev LLM : Type := String → Except UpstreamError String

/-- A client that never fails and answers `f prompt`. -/
def okLLM (f : String → String) : LLM := fun prompt => Except.ok (f prompt)

/-- The map prompt of src/summax.js lines 43-45: a fixed instruction
template with the chunk content substituted for the placeholder. -/
def mapPromptFormat (context : String) : String :=
  "请对以下内容进行总结，只输出总结内容，不要包含任何说明、分析或建议：\n\n" ++ context

/-- Modelled from the spec: the reduce prompt of src/summax.js lines 85-97
substitutes the document list for its placeholder; §4.4 describes this as
concatenating the units' text with a separator into the merge template.
The exact stringification lives in langchain's `ChatPromptTemplate`
(library code, not in src/). -/
def reducePromptFormat (docs : List Document) : String :=
  "下面是一组总结:\n" ++ String.intercalate "\n\n" (docs.map (fun d => d.pageContent))
    ++ "\n\n请将这些总结合并成一个完整的总结。"

/-- Token-Cost Estimator of src/summax.js lines 66-73: map each document to
`doc.pageContent.length`, then `reduce((sum, count) => sum + count, 0)`. -/
def lengthFunction (documents : List Document) : Nat :=
  (documents.map (fun d => d.pageContent.length)).foldl (fun sum count => sum + count) 0

/-- src/summax.js line 65: `let tokenMax = 1500`. -/
def tokenMax : Nat := 1500

/-- The scheduler's node names; `shouldCollapse` returns one of the first
two (as strings in the source), `done` models `__end__`. -/
inductive Node where
  | collectSummaries
  | collapseSummaries
  | generateFinalSummary
  | done
deriving Repr, DecidableEq

/-- Continuation Predicate of src/summax.js lines 76-83: route to
`collapseSummaries` when the WorkingSet's token count strictly exceeds the
budget, else to `generateFinalSummary`. The source closes over the global
`tokenMax`; the budget is a parameter here. -/
def shouldCollapse (budget : Nat) (state : OverallState) : Node :=
  if lengthFunction state.collapsedSummaries > budget then Node.collapseSummaries
  else Node.generateFinalSummary

/-- Modelled from the spec: loop of the Batch Partitioner (§4.2).
`splitListOfDocs` is langchain library code (imported at src/summax.js
line 8), not part of this repository: scan units in order, greedily
accumulate into the current sub-list `cur` while the accumulated cost stays
within budget; otherwise close `cur` and start a new sub-list with the
offending unit; a single oversized unit forms its own singleton sub-list. -/
def splitGo (budget : Nat) (cur : List Document) : List Document → List (List Document)
  | [] => if cur.isEmpty then [] else [cur]
  | d :: rest =>
    if cur.isEmpty then splitGo budget [d] rest
    else if lengthFunction (cur ++ [d]) ≤ budget then splitGo budget (cur ++ [d]) rest
    else cur :: splitGo budget [d] rest

/-- Modelled from the spec: Batch Partitioner contract (§4.2)
`partition(units, budget)`, with the cost function fixed to
`lengthFunction` as in the call at src/summax.js lines 112-116. -/
def splitListOfDocs (docs : List Document) (budget : Nat) : List (List Document) :=
  splitGo budget [] docs

/-- The payload of a langgraph `Send` to the `generateSummary` node
(src/summax.js line 39): one chunk's content. -/
structure SendPayload where
  content : String
deriving Repr, DecidableEq

/-- A langgraph `Send` record as built at src/summax.js line 39. -/
structure Send where
  node : String
  content : String
deriving Repr, DecidableEq

/-- src/summax.js lines 36-41: fan one `Send` to `generateSummary` out per
element of `state.contents`. -/
def mapSummaries (state : OverallState) : List Send :=
  state.contents.map (fun content => { node := "generateSummary", content := content })

/-- Chunk Summarizer of src/summax.js lines 48-55: format the map prompt,
invoke the client once, and return `{ summaries: [summary] }`; a client
failure rejects the whole call (no local retry in the source). -/
def generateSummary (llm : LLM) (state : SendPayload) : Except UpstreamError StateUpdate :=
  match llm (mapPromptFormat state.content) with
  | Except.error e => Except.error e
  | Except.ok response => Except.ok { summaries := some [response] }

/-- src/summax.js lines 57-63: wrap each accumulated summary string as a
`Document`, writing only the `collapsedSummaries` channel. -/
def collectSummaries (state : OverallState) : StateUpdate :=
  { collapsedSummaries := some (state.summaries.map (fun summary => { pageContent := summary })) }

/-- src/summax.js lines 99-103: format the reduce prompt over the input
documents and invoke the client once. -/
def _reduce (llm : LLM) (input : List Document) : Except UpstreamError String :=
  llm (reducePromptFormat input)

/-- Modelled from the spec: `collapseDocs` is langchain library code
(imported at src/summax.js line 8); per §4.4 the Batch Reducer hands the
whole sub-list to the combine function and wraps its output as one new
summary unit, without mutating or discarding the inputs. -/
def collapseDocs (docs : List Document)
    (combineDocumentFunc : List Document → Except UpstreamError String) :
    Except UpstreamError Document :=
  match combineDocumentFunc docs with
  | Except.error e => Except.error e
  | Except.ok result => Except.ok { pageContent := result }

/-- The loop of src/summax.js lines 117-123: walk the partition in order,
collapse each sub-list to one document, and push onto `results`. -/
def collapseRun (llm : LLM) : List (List Document) → List Document →
    Except UpstreamError (List Document)
  | [], results => Except.ok results
  | docList :: rest, results =>
    match collapseDocs docList (_reduce llm) with
    | Except.error e => Except.error e
    | Except.ok collapsed => collapseRun llm rest (results ++ [collapsed])

/-- Collapsing step of src/summax.js lines 111-126: partition the current
WorkingSet with `splitListOfDocs`, collapse each sub-list in order, and
write the result to the `collapsedSummaries` channel. -/
def collapseSummaries (llm : LLM) (budget : Nat) (state : OverallState) :
    Except UpstreamError StateUpdate :=
  match collapseRun llm (splitListOfDocs state.collapsedSummaries budget) [] with
  | Except.error e => Except.error e
  | Except.ok results => Except.ok { collapsedSummaries := some results }

/-- src/summax.js lines 106-109: one reduce call over the entire current
WorkingSet (not partitioned), written to the `finalSummary` channel. -/
def generateFinalSummary (llm : LLM) (state : OverallState) :
    Except UpstreamError StateUpdate :=
  match _reduce llm state.collapsedSummaries with
  | Except.error e => Except.error e
  | Except.ok response => Except.ok { finalSummary := some response }

/-- Terminal failures of a run: an upstream client failure, or the
langgraph `GraphRecursionError` raised when the `recursionLimit` superstep
cap is exceeded (the spec's `CollapseLimitExceeded`). -/
inductive SchedError where
  | upstream (e : UpstreamError)
  | collapseLimitExceeded
deriving Repr, DecidableEq

/-- Modelled from the spec: the Summarizing fan-out superstep (§4.5).  The
langgraph Pregel driver runs one `generateSummary` task per `Send` and
merges the returned `summaries` updates through the concatenation reducer;
the first failing task fails the whole stage. -/
def summarizeStep (llm : LLM) : List Send → Except UpstreamError (List String)
  | [] => Except.ok []
  | send :: rest =>
    match generateSummary llm { content := send.content } with
    | Except.error e => Except.error e
    | Except.ok u =>
      match summarizeStep llm rest with
      | Except.error e => Except.error e
      | Except.ok restSummaries => Except.ok (u.summaries.getD [] ++ restSummaries)

/-- Modelled from the spec: the langgraph superstep loop over the graph of
src/summax.js lines 140-157, driven to at most `fuel` further supersteps
(the `recursionLimit` of `app.stream`, src/summax.js line 187).  Each
executed node applies its update, and conditional edges from both
`collectSummaries` and `collapseSummaries` re-evaluate `shouldCollapse` on
the updated state (lines 147-154); exhausting the cap raises
`CollapseLimitExceeded`.  Besides the final state, the run returns the
trace of executed loop nodes, mirroring the steps `app.stream` yields. -/
def runFrom (budget : Nat) (llm : LLM) :
    Nat → Node → OverallState → Except SchedError (OverallState × List Node)
  | _, Node.done, state => Except.ok (state, [])
  | 0, _, _ => Except.error SchedError.collapseLimitExceeded
  | Nat.succ fuel, Node.collectSummaries, state =>
    (runFrom budget llm fuel
          (shouldCollapse budget (applyUpdate state (collectSummaries state)))
          (applyUpdate state (collectSummaries state))).map
      (fun r => (r.1, Node.collectSummaries :: r.2))
  | Nat.succ fuel, Node.collapseSummaries, state =>
    match collapseSummaries llm budget state with
    | Except.error e => Except.error (SchedError.upstream e)
    | Except.ok u =>
      (runFrom budget llm fuel
            (shouldCollapse budget (applyUpdate state u))
            (applyUpdate state u)).map
        (fun r => (r.1, Node.collapseSummaries :: r.2))
  | Nat.succ fuel, Node.generateFinalSummary, state =>
    match generateFinalSummary llm state with
    | Except.error e => Except.error (SchedError.upstream e)
    | Except.ok u =>
      (runFrom budget llm fuel Node.done (applyUpdate state u)).map
        (fun r => (r.1, Node.generateFinalSummary :: r.2))

/-- src/summax.js line 187: `recursionLimit: 10`. -/
def recursionLimit : Nat := 10

/-- The initial graph state of the invocation at src/summax.js line 186:
only `contents` is supplied. -/
def initialState (contents : List String) : OverallState :=
  { contents := contents, summaries := [], collapsedSummaries := [], finalSummary := none }

/-- Modelled from the spec: the whole run of `app.stream` (src/summax.js
lines 185-188).  The start edge fans out via `mapSummaries`; with zero
`Send`s no task is dispatched and the graph halts at once with the initial
state (Scenario D).  Otherwise the fan-out consumes one superstep and the
loop continues from `collectSummaries` under the remaining cap. -/
def runApp (budget : Nat) (llm : LLM) (contents : List String) :
    Except SchedError (OverallState × List Node) :=
  match summarizeStep llm (mapSummaries (initialState contents)) with
  | Except.error e => Except.error (SchedError.upstream e)
  | Except.ok allSummaries =>
    if contents.isEmpty then Except.ok (initialState contents, [])
    else
      runFrom budget llm (recursionLimit - 1) Node.collectSummaries
        (applyUpdate (initialState contents) { summaries := some allSummaries })

/- ### Helper lemmas -/

theorem lengthFunction_foldl (l : List Nat) :
    ∀ n : Nat, l.foldl (fun sum count => sum + count) n = n + l.sum := by
  induction l with
  | nil => intro n; simp
  | cons a t ih => intro n; simp only [List.foldl_cons, ih, List.sum_cons]; omega

theorem lengthFunction_eq_sum (documents : List Document) :
    lengthFunction documents = (documents.map (fun d => d.pageContent.length)).sum := by
  simp [lengthFunction, lengthFunction_foldl]

theorem lengthFunction_append (l₁ l₂ : List Document) :
    lengthFunction (l₁ ++ l₂) = lengthFunction l₁ + lengthFunction l₂ := by
  simp [lengthFunction_eq_sum]

theorem splitGo_flatten (budget : Nat) :
    ∀ docs cur, (splitGo budget cur docs).flatten = cur ++ docs := by
  intro docs
  induction docs with
  | nil =>
    intro cur
    by_cases h : cur.isEmpty
    · simp [splitGo, h, List.isEmpty_iff.mp h]
    · simp [splitGo, h]
  | cons d rest ih =>
    intro cur
    by_cases h : cur.isEmpty
    · simp [splitGo, h, ih, List.isEmpty_iff.mp h]
    · by_cases h2 : lengthFunction (cur ++ [d]) ≤ budget
      · simp [splitGo, h, h2, ih]
      · simp [splitGo, h, h2, ih]

theorem splitGo_budget_inv (budget : Nat) :
    ∀ docs cur, (cur ≠ [] → lengthFunction cur ≤ budget ∨ cur.length = 1) →
    ∀ l ∈ splitGo budget cur docs, lengthFunction l ≤ budget ∨ l.length = 1 := by
  intro docs
  induction docs with
  | nil =>
    intro cur hcur l hl
    by_cases h : cur.isEmpty
    · simp [splitGo, h] at hl
    · simp [splitGo, h] at hl
      subst hl
      exact hcur (fun he => h (by simp [he]))
  | cons d rest ih =>
    intro cur hcur l hl
    by_cases h : cur.isEmpty
    · simp only [splitGo, h, if_true] at hl
      exact ih [d] (fun _ => Or.inr rfl) l hl
    · by_cases h2 : lengthFunction (cur ++ [d]) ≤ budget
      · simp only [splitGo, h, if_false, h2, if_true, Bool.false_eq_true] at hl
        exact ih (cur ++ [d]) (fun _ => Or.inl h2) l hl
      · simp only [splitGo, h, if_false, h2, Bool.false_eq_true, List.mem_cons] at hl
        rcases hl with hl | hl
        · subst hl
          exact hcur (fun he => h (by simp [he]))
        · exact ih [d] (fun _ => Or.inr rfl) l hl

/- ### Claims about the estimator and the partitioner -/

/-- C6: the Token-Cost Estimator is a pure function whose unit cost
`d.pageContent.length` is a non-negative integer, whose total equals the
sum of the individual unit costs, and which is monotone: appending a unit
never decreases the total. -/
theorem lengthFunction_sum_monotone (l : List Document) (d : Document) :
    lengthFunction l = (l.map (fun d => d.pageContent.length)).sum
    ∧ 0 ≤ d.pageContent.length
    ∧ lengthFunction (l ++ [d]) = lengthFunction l + d.pageContent.length
    ∧ lengthFunction l ≤ lengthFunction (l ++ [d]) := by
  refine ⟨lengthFunction_eq_sum l, Nat.zero_le _, ?_, ?_⟩
  · simp [lengthFunction_append, lengthFunction_eq_sum]
  · simp [lengthFunction_append]

/-- C2: the Batch Partitioner is an order-preserving exact cover: the
concatenation of its sub-lists is the input itself (so every unit appears
in exactly one sub-list, in order); an empty input yields the empty
partition; a single unit — even one whose own cost exceeds the budget —
forms its own singleton sub-list and is never dropped. -/
theorem splitListOfDocs_cover (docs : List Document) (budget : Nat) :
    (splitListOfDocs docs budget).flatten = docs
    ∧ splitListOfDocs [] budget = []
    ∧ ∀ d : Document, splitListOfDocs [d] budget = [[d]] := by
  refine ⟨?_, rfl, ?_⟩
  · simpa using splitGo_flatten budget docs []
  · intro d
    simp [splitListOfDocs, splitGo]

/-- C3: every sub-list of a partition produced by the Batch Partitioner has
total cost within budget, except a forced singleton holding a single
oversized unit. -/
theorem splitListOfDocs_budget (docs : List Document) (budget : Nat)
    (l : List Document) (hl : l ∈ splitListOfDocs docs budget) :
    lengthFunction l ≤ budget ∨ (l.length = 1 ∧ budget < lengthFunction l) := by
  rcases splitGo_budget_inv budget docs [] (fun h => absurd rfl h) l hl with h | h
  · exact Or.inl h
  · by_cases hc : lengthFunction l ≤ budget
    · exact Or.inl hc
    · exact Or.inr ⟨h, Nat.lt_of_not_le hc⟩

/-- Witness for C3: for units of costs 2,2 and budget 3 the partition is
two singletons, each within budget. -/
theorem splitListOfDocs_budget_witness :
    lengthFunction [Document.mk "ab"] ≤ 3
    ∨ ([Document.mk "ab"].length = 1 ∧ 3 < lengthFunction [Document.mk "ab"]) :=
  splitListOfDocs_budget [Document.mk "ab", Document.mk "cd"] 3 [Document.mk "ab"]
    (by decide)

/- ### Helper lemmas for the node functions under a non-failing client -/

theorem collapseRun_ok (f : String → String) :
    ∀ (lss : List (List Document)) (acc : List Document),
      collapseRun (okLLM f) lss acc =
        Except.ok (acc ++ lss.map (fun l => { pageContent := f (reducePromptFormat l) })) := by
  intro lss
  induction lss with
  | nil => intro acc; simp [collapseRun]
  | cons l rest ih => intro acc; simp [collapseRun, collapseDocs, _reduce, okLLM, ih]

theorem collapseSummaries_ok (f : String → String) (budget : Nat) (state : OverallState) :
    collapseSummaries (okLLM f) budget state =
      Except.ok { collapsedSummaries := some ((splitListOfDocs state.collapsedSummaries budget).map
        (fun l => { pageContent := f (reducePromptFormat l) })) } := by
  simp [collapseSummaries, collapseRun_ok]

theorem generateFinalSummary_ok (f : String → String) (state : OverallState) :
    generateFinalSummary (okLLM f) state =
      Except.ok { finalSummary := some (f (reducePromptFormat state.collapsedSummaries)) } := rfl

theorem summarizeStep_ok (f : String → String) :
    ∀ sends, summarizeStep (okLLM f) sends =
      Except.ok (sends.map (fun send => f (mapPromptFormat send.content))) := by
  intro sends
  induction sends with
  | nil => rfl
  | cons send rest ih => simp [summarizeStep, generateSummary, okLLM, ih]

/- ### Claims about the scheduler nodes -/

/-- C4: under a non-failing client, a Collapsing step produces exactly one
merged summary unit per partition sub-list, assembled in the Partitioner's
order (the new WorkingSet is the in-order image of the partition). -/
theorem collapseSummaries_one_per_sublist (f : String → String) (budget : Nat)
    (state : OverallState) :
    ∃ newSet, collapseSummaries (okLLM f) budget state =
        Except.ok { collapsedSummaries := some newSet }
      ∧ newSet = (splitListOfDocs state.collapsedSummaries budget).map
          (fun l => { pageContent := f (reducePromptFormat l) })
      ∧ newSet.length = (splitListOfDocs state.collapsedSummaries budget).length := by
  exact ⟨_, collapseSummaries_ok f budget state, rfl, by simp⟩

/-- C10: each node writes only its own channel: `collectSummaries` and
`collapseSummaries` return updates carrying only `collapsedSummaries`, and
applying them leaves `contents`, `summaries` and `finalSummary` unchanged;
`generateFinalSummary` returns only `finalSummary`, and applying it leaves
`contents`, `summaries` and `collapsedSummaries` unchanged. -/
theorem nodes_frame (f : String → String) (budget : Nat) (state : OverallState) :
    ((collectSummaries state).contents = none
      ∧ (collectSummaries state).summaries = none
      ∧ (collectSummaries state).finalSummary = none
      ∧ (applyUpdate state (collectSummaries state)).contents = state.contents
      ∧ (applyUpdate state (collectSummaries state)).summaries = state.summaries
      ∧ (applyUpdate state (collectSummaries state)).finalSummary = state.finalSummary)
    ∧ (∃ u, collapseSummaries (okLLM f) budget state = Except.ok u
      ∧ u.contents = none ∧ u.summaries = none ∧ u.finalSummary = none
      ∧ (applyUpdate state u).contents = state.contents
      ∧ (applyUpdate state u).summaries = state.summaries
      ∧ (applyUpdate state u).finalSummary = state.finalSummary)
    ∧ (∃ u, generateFinalSummary (okLLM f) state = Except.ok u
      ∧ u.contents = none ∧ u.summaries = none ∧ u.collapsedSummaries = none
      ∧ (applyUpdate state u).contents = state.contents
      ∧ (applyUpdate state u).summaries = state.summaries
      ∧ (applyUpdate state u).collapsedSummaries = state.collapsedSummaries) := by
  refine ⟨⟨rfl, rfl, rfl, rfl, rfl, rfl⟩, ?_, ?_⟩
  · exact ⟨_, collapseSummaries_ok f budget state, rfl, rfl, rfl, rfl, rfl, rfl⟩
  · exact ⟨_, generateFinalSummary_ok f state, rfl, rfl, rfl, rfl, rfl, rfl⟩

/-- C1: the Continuation Predicate routes to Collapsing exactly when the
WorkingSet's total cost strictly exceeds the budget, and to
FinalizingSummary exactly when it is within budget; after every Collapsing
iteration the next node is again decided by `shouldCollapse` on the updated
state; and when the cost of the collected WorkingSet is within budget the
run goes straight from Collecting to FinalizingSummary with no Collapsing
iteration in its trace. -/
theorem shouldCollapse_routing (budget : Nat) (state : OverallState) :
    (shouldCollapse budget state = Node.collapseSummaries
        ↔ budget < lengthFunction state.collapsedSummaries)
    ∧ (shouldCollapse budget state = Node.generateFinalSummary
        ↔ lengthFunction state.collapsedSummaries ≤ budget)
    ∧ (∀ (f : String → String) (fuel : Nat), ∃ u,
        collapseSummaries (okLLM f) budget state = Except.ok u
        ∧ runFrom budget (okLLM f) (fuel + 1) Node.collapseSummaries state =
            (runFrom budget (okLLM f) fuel
                (shouldCollapse budget (applyUpdate state u)) (applyUpdate state u)).map
              (fun r => (r.1, Node.collapseSummaries :: r.2)))
    ∧ (∀ (f : String → String) (fuel : Nat),
        lengthFunction (applyUpdate state (collectSummaries state)).collapsedSummaries ≤ budget →
        ∃ s, runFrom budget (okLLM f) (fuel + 2) Node.collectSummaries state =
          Except.ok (s, [Node.collectSummaries, Node.generateFinalSummary])) := by
  refine ⟨?_, ?_, ?_, ?_⟩
  · unfold shouldCollapse
    by_cases h : lengthFunction state.collapsedSummaries > budget <;> simp [h]
  · unfold shouldCollapse
    by_cases h : lengthFunction state.collapsedSummaries > budget
    · simp only [h, if_true]
      constructor
      · intro hcon
        exact absurd hcon (by simp)
      · intro hle
        omega
    · simp only [h, if_false]
      simp only [true_iff]
      omega
  · intro f fuel
    refine ⟨_, collapseSummaries_ok f budget state, ?_⟩
    simp [runFrom, collapseSummaries_ok]
  · intro f fuel h
    have hroute : shouldCollapse budget (applyUpdate state (collectSummaries state)) =
        Node.generateFinalSummary := by
      unfold shouldCollapse
      simp [Nat.not_lt.mpr h]
    refine ⟨applyUpdate (applyUpdate state (collectSummaries state))
      { finalSummary := some (f (reducePromptFormat
          (applyUpdate state (collectSummaries state)).collapsedSummaries)) }, ?_⟩
    show runFrom budget (okLLM f) (fuel + 1 + 1) Node.collectSummaries state = _
    simp [runFrom, hroute, generateFinalSummary_ok, Except.map]

/-- Witness for C1: a collected WorkingSet of cost 2 with budget 1500 runs
Collecting then FinalizingSummary, with no Collapsing iteration. -/
theorem shouldCollapse_routing_witness :
    ∃ s, runFrom 1500 (okLLM (fun _ => "ok")) 3 Node.collectSummaries
        { contents := ["a"], summaries := ["hi"], collapsedSummaries := [], finalSummary := none } =
      Except.ok (s, [Node.collectSummaries, Node.generateFinalSummary]) :=
  (shouldCollapse_routing 1500
    { contents := ["a"], summaries := ["hi"], collapsedSummaries := [], finalSummary := none
      }).2.2.2 (fun _ => "ok") 1 (by decide)

theorem runFrom_done (budget : Nat) (llm : LLM) (fuel : Nat) (state : OverallState) :
    runFrom budget llm fuel Node.done state = Except.ok (state, []) := by
  cases fuel <;> rfl

theorem runFrom_total (budget : Nat) (f : String → String) :
    ∀ (fuel : Nat) (n : Node) (state : OverallState),
      (∃ r, runFrom budget (okLLM f) fuel n state = Except.ok r ∧ r.2.length ≤ fuel)
      ∨ runFrom budget (okLLM f) fuel n state = Except.error SchedError.collapseLimitExceeded := by
  intro fuel
  induction fuel with
  | zero =>
    intro n state
    cases n with
    | done => exact Or.inl ⟨(state, []), rfl, Nat.le_refl 0⟩
    | collectSummaries => exact Or.inr rfl
    | collapseSummaries => exact Or.inr rfl
    | generateFinalSummary => exact Or.inr rfl
  | succ k ih =>
    intro n state
    cases n with
    | done => exact Or.inl ⟨(state, []), runFrom_done budget (okLLM f) (k + 1) state, Nat.zero_le _⟩
    | collectSummaries =>
      rcases ih (shouldCollapse budget (applyUpdate state (collectSummaries state)))
          (applyUpdate state (collectSummaries state)) with ⟨r, hr, hlen⟩ | hr
      · exact Or.inl ⟨(r.1, Node.collectSummaries :: r.2),
          by simp [runFrom, hr, Except.map], by simpa using Nat.succ_le_succ hlen⟩
      · exact Or.inr (by simp [runFrom, hr, Except.map])
    | collapseSummaries =>
      rcases ih (shouldCollapse budget (applyUpdate state
            { collapsedSummaries := some ((splitListOfDocs state.collapsedSummaries budget).map
              (fun l => { pageContent := f (reducePromptFormat l) })) }))
          (applyUpdate state
            { collapsedSummaries := some ((splitListOfDocs state.collapsedSummaries budget).map
              (fun l => { pageContent := f (reducePromptFormat l) })) }) with ⟨r, hr, hlen⟩ | hr
      · exact Or.inl ⟨(r.1, Node.collapseSummaries :: r.2),
          by simp [runFrom, collapseSummaries_ok, hr, Except.map],
          by simpa using Nat.succ_le_succ hlen⟩
      · exact Or.inr (by simp [runFrom, collapseSummaries_ok, hr, Except.map])
    | generateFinalSummary =>
      rcases ih Node.done (applyUpdate state
            { finalSummary := some (f (reducePromptFormat state.collapsedSummaries)) })
          with ⟨r, hr, hlen⟩ | hr
      · exact Or.inl ⟨(r.1, Node.generateFinalSummary :: r.2),
          by simp [runFrom, generateFinalSummary_ok, hr, Except.map],
          by simpa using Nat.succ_le_succ hlen⟩
      · exact Or.inr (by simp [runFrom, generateFinalSummary_ok, hr, Except.map])

/-- C5: under a non-failing client, every run of the scheduler terminates:
for every budget and every finite input it reaches Done (a successful
result whose step trace stays within the recursion cap of 10) or fails
with `CollapseLimitExceeded` — it never loops unboundedly, even when a
collapse iteration does not shrink the total cost. -/
theorem runApp_terminates (budget : Nat) (f : String → String) (contents : List String) :
    (∃ r, runApp budget (okLLM f) contents = Except.ok r ∧ r.2.length ≤ recursionLimit)
    ∨ runApp budget (okLLM f) contents = Except.error SchedError.collapseLimitExceeded := by
  by_cases hc : contents.isEmpty
  · exact Or.inl ⟨(initialState contents, []),
      by simp [runApp, summarizeStep_ok, hc], by simp [recursionLimit]⟩
  · rcases runFrom_total budget f (recursionLimit - 1) Node.collectSummaries
        (applyUpdate (initialState contents)
          { summaries := some ((mapSummaries (initialState contents)).map
              (fun send => f (mapPromptFormat send.content))) }) with ⟨r, hr, hlen⟩ | hr
    · exact Or.inl ⟨r, by simp [runApp, summarizeStep_ok, hc, hr],
        le_trans hlen (by simp [recursionLimit])⟩
    · exact Or.inr (by simp [runApp, summarizeStep_ok, hc, hr])

/-- C7: the Chunk Summarizer makes exactly one client call and propagates
its failure unchanged (no local retry); it succeeds exactly with the
client's completion; and under the spec's client contract — upstream
failure on empty completion — it never returns a summary derived from
empty content. -/
theorem generateSummary_upstream (llm : LLM) (p : SendPayload) :
    (∀ e, generateSummary llm p = Except.error e
        ↔ llm (mapPromptFormat p.content) = Except.error e)
    ∧ (∀ s, llm (mapPromptFormat p.content) = Except.ok s →
        generateSummary llm p = Except.ok { summaries := some [s] })
    ∧ ((∀ q s, llm q = Except.ok s → s ≠ "") →
        ∀ u str, generateSummary llm p = Except.ok u → u.summaries = some [str] → str ≠ "") := by
  refine ⟨?_, ?_, ?_⟩
  · intro e
    cases h : llm (mapPromptFormat p.content) <;> simp [generateSummary, h]
  · intro s h
    simp [generateSummary, h]
  · intro hcontract u str hu hsum
    cases h : llm (mapPromptFormat p.content) with
    | error e => simp [generateSummary, h] at hu
    | ok s =>
      simp [generateSummary, h] at hu
      rw [← hu] at hsum
      simp at hsum
      rw [← hsum]
      exact hcontract _ s h

/-- Witness for C7: a client that fails with message "boom" makes the
summarizer fail with exactly that error. -/
theorem generateSummary_upstream_witness :
    generateSummary (fun _ => Except.error (UpstreamError.mk "boom")) (SendPayload.mk "txt")
      = Except.error (UpstreamError.mk "boom") :=
  ((generateSummary_upstream (fun _ => Except.error (UpstreamError.mk "boom"))
    (SendPayload.mk "txt")).1 (UpstreamError.mk "boom")).mpr rfl

/-- C8: with zero chunks the fan-out produces no `Send`s, the run
short-circuits at once to the defined empty-input result (the initial
state, whose `finalSummary` is the `none` sentinel the driver reports),
and the result is independent of the LLM client — no client call is made. -/
theorem runApp_empty (budget : Nat) :
    mapSummaries (initialState []) = []
    ∧ (∀ llm : LLM, runApp budget llm [] = Except.ok (initialState [], []))
    ∧ (∀ llm llm' : LLM, runApp budget llm [] = runApp budget llm' [])
    ∧ (initialState ([] : List String)).finalSummary = none := by
  exact ⟨rfl, fun llm => rfl, fun llm llm' => rfl, rfl⟩

theorem runFrom_final_inv (budget : Nat) (f : String → String) :
    ∀ (fuel : Nat) (n : Node) (state : OverallState) (r : OverallState × List Node),
      n ≠ Node.done →
      runFrom budget (okLLM f) fuel n state = Except.ok r →
      r.1.finalSummary = some (f (reducePromptFormat r.1.collapsedSummaries))
      ∧ ∃ pre, r.2 = pre ++ [Node.generateFinalSummary]
          ∧ Node.generateFinalSummary ∉ pre := by
  intro fuel
  induction fuel with
  | zero =>
    intro n state r hn hr
    cases n with
    | done => exact absurd rfl hn
    | collectSummaries => exact absurd hr (by simp [runFrom])
    | collapseSummaries => exact absurd hr (by simp [runFrom])
    | generateFinalSummary => exact absurd hr (by simp [runFrom])
  | succ k ih =>
    intro n state r hn hr
    cases n with
    | done => exact absurd rfl hn
    | collectSummaries =>
      simp only [runFrom] at hr
      cases hinner : runFrom budget (okLLM f) k
          (shouldCollapse budget (applyUpdate state (collectSummaries state)))
          (applyUpdate state (collectSummaries state)) with
      | error e =>
        rw [hinner] at hr
        simp [Except.map] at hr
      | ok r' =>
        rw [hinner] at hr
        simp only [Except.map, Except.ok.injEq] at hr
        have hnext : shouldCollapse budget (applyUpdate state (collectSummaries state))
            ≠ Node.done := by
          unfold shouldCollapse
          by_cases hx : lengthFunction (applyUpdate state
              (collectSummaries state)).collapsedSummaries > budget <;> simp [hx]
        obtain ⟨hfin, pre, hpre, hmem⟩ := ih _ _ _ hnext hinner
        rw [← hr]
        refine ⟨hfin, Node.collectSummaries :: pre, by simp [hpre], by simp [hmem]⟩
    | collapseSummaries =>
      simp only [runFrom, collapseSummaries_ok] at hr
      cases hinner : runFrom budget (okLLM f) k
          (shouldCollapse budget (applyUpdate state
            { collapsedSummaries := some ((splitListOfDocs state.collapsedSummaries budget).map
              (fun l => { pageContent := f (reducePromptFormat l) })) }))
          (applyUpdate state
            { collapsedSummaries := some ((splitListOfDocs state.collapsedSummaries budget).map
              (fun l => { pageContent := f (reducePromptFormat l) })) }) with
      | error e =>
        rw [hinner] at hr
        simp [Except.map] at hr
      | ok r' =>
        rw [hinner] at hr
        simp only [Except.map, Except.ok.injEq] at hr
        have hnext : shouldCollapse budget (applyUpdate state
            { collapsedSummaries := some ((splitListOfDocs state.collapsedSummaries budget).map
              (fun l => { pageContent := f (reducePromptFormat l) })) }) ≠ Node.done := by
          unfold shouldCollapse
          by_cases hx : lengthFunction (applyUpdate state
              { collapsedSummaries := some ((splitListOfDocs state.collapsedSummaries budget).map
                (fun l => { pageContent := f (reducePromptFormat l) })) }).collapsedSummaries
              > budget <;> simp [hx]
        obtain ⟨hfin, pre, hpre, hmem⟩ := ih _ _ _ hnext hinner
        rw [← hr]
        refine ⟨hfin, Node.collapseSummaries :: pre, by simp [hpre], by simp [hmem]⟩
    | generateFinalSummary =>
      simp only [runFrom, generateFinalSummary_ok, runFrom_done] at hr
      simp only [Except.map, Except.ok.injEq] at hr
      rw [← hr]
      refine ⟨by simp [applyUpdate], [], rfl, by simp⟩

/-- C9: on every successful run with at least one chunk, the scheduler's
`finalSummary` is a single plain string produced by one reduce call over
the entire current WorkingSet (not partitioned), and it is written exactly
once, by the single FinalizingSummary step that ends the trace. -/
theorem runApp_final_output (budget : Nat) (f : String → String) (contents : List String)
    (r : OverallState × List Node) (hne : contents ≠ [])
    (hr : runApp budget (okLLM f) contents = Except.ok r) :
    r.1.finalSummary = some (f (reducePromptFormat r.1.collapsedSummaries))
    ∧ ∃ pre, r.2 = pre ++ [Node.generateFinalSummary]
        ∧ Node.generateFinalSummary ∉ pre := by
  have hc : contents.isEmpty = false := by
    cases contents with
    | nil => exact absurd rfl hne
    | cons a l => rfl
  simp only [runApp, summarizeStep_ok, hc, Bool.false_eq_true, if_false] at hr
  exact runFrom_final_inv budget f _ Node.collectSummaries _ r (by simp) hr

/-- Witness for C9: one chunk "a", client answering "s": the run succeeds
with finalSummary "s", reducing the whole WorkingSet, and the trace ends
with the single FinalizingSummary step. -/
theorem runApp_final_output_witness :
    ({ contents := ["a"], summaries := ["s"], collapsedSummaries := [Document.mk "s"],
        finalSummary := some "s" } : OverallState).finalSummary =
      some ((fun _ => "s") (reducePromptFormat [Document.mk "s"]))
    ∧ ∃ pre, [Node.collectSummaries, Node.generateFinalSummary] =
          pre ++ [Node.generateFinalSummary]
        ∧ Node.generateFinalSummary ∉ pre :=
  runApp_final_output 1500 (fun _ => "s") ["a"]
    ({ contents := ["a"], summaries := ["s"], collapsedSummaries := [Document.mk "s"],
        finalSummary := some "s" }, [Node.collectSummaries, Node.generateFinalSummary])
    (by simp) (by rfl)

end Summax
